import Mathlib

/-!
Verification of the search-input-query parser core.

This file gives a shallow embedding of the repository's parser pipeline
(`src/search-input-query-parser`) and proves the frozen claims about it.

Code that is present in the repository (`parser.ts`, `validate-in-expression.ts`)
is translated directly.  The modules `lexer.ts`, `first-pass-parser.ts`,
`validator.ts`, `validate-expression-fields.ts` and `transform-to-expression.ts`
are imported by `parser.ts` but are not part of the repository snapshot; the
definitions standing in for them are modelled from the specification and are
marked `Modelled from the spec:` in their doc comments.
-/

namespace SIQ

/-- Error taxonomy of the validators (spec section 7, and
`SearchQueryErrorCode` imported from the missing `validator.ts`). -/
inductive SearchQueryErrorCode where
  | INVALID_FIELD_CHARS
  | RESERVED_WORD_AS_FIELD
  | INVALID_IN_VALUE
  | UNKNOWN_FIELD
  | TYPE_MISMATCH
  deriving DecidableEq, Repr

/-- A positioned diagnostic: `{message, code, position, length, value?}`.
The `code` and `value` fields are optional because the structural errors
thrown inside `parseSearchInputQuery` carry only `message`, `position` and
`length`. -/
structure ValidationError where
  message : String
  code : Option SearchQueryErrorCode := none
  position : Nat
  length : Nat
  value : Option String := none
  deriving DecidableEq, Repr

/-- FieldSchema from `parser.ts`: a queryable column's name and type. -/
structure FieldSchema where
  name : String
  type : String   -- one of "string" | "number" | "date" | "boolean"
  deriving DecidableEq, Repr

/-- Field node of the second-pass AST (`parser.ts`). -/
structure Field where
  value : String
  position : Nat
  length : Nat
  deriving DecidableEq, Repr

/-- Value node of the second-pass AST (`parser.ts`). -/
structure Value where
  value : String
  position : Nat
  length : Nat
  deriving DecidableEq, Repr

/-- RangeOperator from `parser.ts`: `">=" | ">" | "<=" | "<" | "BETWEEN"`. -/
inductive RangeOperator where
  | GE | GT | LE | LT | BETWEEN
  deriving DecidableEq, Repr

/-- The literal operator text, as it appears in the TS string-literal type. -/
def rangeOpText : RangeOperator → String
  | .GE => ">="
  | .GT => ">"
  | .LE => "<="
  | .LT => "<"
  | .BETWEEN => "BETWEEN"

/-- Second-pass AST (`Expression` in `parser.ts`).  Every variant except
`FIELD_VALUE` carries `position`/`length` (in the TS source `FieldValue` is
the one variant not intersected with `PositionLength`). -/
inductive Expression where
  | SEARCH_TERM (value : String) (position length : Nat)
  | WILDCARD (pre : String) (quoted : Bool) (position length : Nat)
  | FIELD_VALUE (field : Field) (value : Value)
  | RANGE (field : Field) (operator : RangeOperator) (value : Value)
      (value2 : Option Value) (position length : Nat)
  | AND (left right : Expression) (position length : Nat)
  | OR (left right : Expression) (position length : Nat)
  | NOT (expression : Expression) (position length : Nat)
  | IN (field : Field) (values : List Value) (position length : Nat)
  deriving DecidableEq, Repr

/-- Model of the JS test `s.includes(" ")`: does the string contain the
space character U+0020? -/
def includesSpace (s : String) : Bool :=
  s.toList.contains ' '

/-- Model of the TS template fragment for an optional second range bound:
`expr.value2?.value` interpolates to the literal text `undefined` when the
bound is absent. -/
def value2Text : Option Value → String
  | some w => w.value
  | none => "undefined"

/-- The canonical serializer `stringify` from `parser.ts` (lines 100-126),
translated case by case. -/
def stringify : Expression → String
  | .SEARCH_TERM v _ _ =>
      if includesSpace v then "\"" ++ v ++ "\"" else v
  | .WILDCARD p q _ _ =>
      if q then "\"" ++ p ++ "*\"" else p ++ "*"
  | .FIELD_VALUE f v =>
      f.value ++ ":" ++ v.value
  | .RANGE f op v v2 _ _ =>
      if op = .BETWEEN then
        f.value ++ ":" ++ v.value ++ ".." ++ value2Text v2
      else
        f.value ++ ":" ++ rangeOpText op ++ v.value
  | .NOT e _ _ =>
      "NOT (" ++ stringify e ++ ")"
  | .AND l r _ _ =>
      "(" ++ stringify l ++ " AND " ++ stringify r ++ ")"
  | .OR l r _ _ =>
      "(" ++ stringify l ++ " OR " ++ stringify r ++ ")"
  | .IN f vs _ _ =>
      f.value ++ ":IN(" ++
        String.intercalate ","
          (vs.map (fun v => if includesSpace v.value then "\"" ++ v.value ++ "\"" else v.value))
        ++ ")"

/-- Erase every `position`/`length` annotation; two expressions are
"structurally equal" in the sense of the spec's round-trip property when
their erasures coincide. -/
def eraseP : Expression → Expression
  | .SEARCH_TERM v _ _ => .SEARCH_TERM v 0 0
  | .WILDCARD p q _ _ => .WILDCARD p q 0 0
  | .FIELD_VALUE f v => .FIELD_VALUE ⟨f.value, 0, 0⟩ ⟨v.value, 0, 0⟩
  | .RANGE f op v v2 _ _ =>
      .RANGE ⟨f.value, 0, 0⟩ op ⟨v.value, 0, 0⟩
        (v2.map (fun w => ⟨w.value, 0, 0⟩)) 0 0
  | .AND l r _ _ => .AND (eraseP l) (eraseP r) 0 0
  | .OR l r _ _ => .OR (eraseP l) (eraseP r) 0 0
  | .NOT e _ _ => .NOT (eraseP e) 0 0
  | .IN f vs _ _ =>
      .IN ⟨f.value, 0, 0⟩ (vs.map (fun v => ⟨v.value, 0, 0⟩)) 0 0

/-- The rendering of a search term as the specification words it: quoted
exactly when the value contains whitespace (any whitespace character).
This is the claim-side reading, kept for comparison with `stringify`. -/
def specTermText (v : String) : String :=
  if v.toList.any Char.isWhitespace then "\"" ++ v ++ "\"" else v

/-- InExpression node of the first-pass syntax tree.  Its defining module
(`first-pass-parser.ts`) is not in the repository snapshot; the fields are
exactly the ones `validate-in-expression.ts` uses: a plain-string field
name, the ordered raw value strings, and the node's span. -/
structure InExpression where
  field : String
  values : List String
  position : Nat
  length : Nat
  deriving DecidableEq, Repr

/-- Model of JS `toUpperCase` as a character-wise map (kernel-computable
equivalent of `String.toUpper`). -/
def upper (s : String) : String := ⟨s.data.map Char.toUpper⟩

/-- Model of JS `toLowerCase` as a character-wise map (kernel-computable
equivalent of `String.toLower`). -/
def lower (s : String) : String := ⟨s.data.map Char.toLower⟩

/-- Modelled from the spec: `reservedWords` from the missing `validator.ts`.
Spec sections 4.3 and 6: the reserved keywords are AND, OR, NOT, IN. -/
def reservedWords : List String := ["AND", "OR", "NOT", "IN"]

/-- The regular-expression test `/^[a-zA-Z][a-zA-Z0-9_-]*$/.test(s)` used by
`validate-in-expression.ts`: one ASCII letter followed by letters, digits,
underscores or hyphens. -/
def isValidFieldName (s : String) : Bool :=
  match s.toList with
  | [] => false
  | c :: rest => c.isAlpha && rest.all (fun d => d.isAlphanum || d = '_' || d = '-')

/-- validateInExpression from `validate-in-expression.ts`, translated
statement by statement.  The TS version pushes into its `errors` argument
and returns void; here the extended list is returned.  The function is
total (it never throws). -/
def validateInExpression (expr : InExpression) (errors : List ValidationError) :
    List ValidationError :=
  -- Validate field name pattern
  let errors :=
    if !(isValidFieldName expr.field) then
      errors ++ [{ message := "Invalid characters in field name",
                   code := some .INVALID_FIELD_CHARS,
                   position := expr.position,
                   length := expr.field.length }]
    else errors
  -- Check for reserved words
  let errors :=
    if reservedWords.contains (upper expr.field) then
      errors ++ [{ message := expr.field ++ " is a reserved word",
                   code := some .RESERVED_WORD_AS_FIELD,
                   value := some expr.field,
                   position := expr.position,
                   length := expr.field.length }]
    else errors
  -- Validate value format (forEach over the values with their index)
  errors ++ expr.values.enum.filterMap (fun p =>
    if p.2.toList.contains ',' then
      some { message := "Invalid character in IN value",
             code := some .INVALID_IN_VALUE,
             position := expr.position + expr.field.length + 3 + p.1 * (p.2.length + 1),
             length := p.2.length }
    else none)

/-- The INVALID_IN_VALUE diagnostics produced for the values of one IN node
(the third block of `validateInExpression`). -/
def inValueErrors (expr : InExpression) : List ValidationError :=
  expr.values.enum.filterMap (fun p =>
    if p.2.toList.contains ',' then
      some { message := "Invalid character in IN value",
             code := some .INVALID_IN_VALUE,
             position := expr.position + expr.field.length + 3 + p.1 * (p.2.length + 1),
             length := p.2.length }
    else none)

/-- The claim-side position formula for an INVALID_IN_VALUE diagnostic: the
IN node's start, plus the field-name length, plus the fixed offset 3, plus
the literal offset of value number `i` within the comma-joined value list
(the sum of the earlier values' lengths, each followed by one comma). -/
def inValueSpecPosition (expr : InExpression) (i : Nat) : Nat :=
  expr.position + expr.field.length + 3 +
    (expr.values.take i).foldl (fun acc v => acc + v.length + 1) 0

/-- The deduplication key built by the error merge: the TS template literal
`position-length` from parser.ts line 171. -/
def errKey (e : ValidationError) : String :=
  Nat.repr e.position ++ "-" ++ Nat.repr e.length

/-- The comparison relation of the final sort in parser.ts lines 183-185:
the comparator `(a, b) => a.position - b.position` orders errors by
ascending position. -/
def posLe (a b : ValidationError) : Prop := a.position ≤ b.position

instance : DecidableRel posLe := fun a b => Nat.decLe a.position b.position

instance : IsTotal ValidationError posLe := ⟨fun a b => Nat.le_total a.position b.position⟩

instance : IsTrans ValidationError posLe := ⟨fun _ _ _ => Nat.le_trans⟩

/-- The error merge of `parseSearchInputQuery` (parser.ts lines 170-185):
drop structural errors' key-collisions out of the schema errors, then sort
the concatenation by position.  JS `Array.prototype.sort` is guaranteed
stable, modelled here by the stable `List.insertionSort`. -/
def mergeErrors (errors fieldErrors : List ValidationError) : List ValidationError :=
  let fieldErrorKeys := fieldErrors.map errKey
  let errorsToRemove := errors.filter (fun e => fieldErrorKeys.contains (errKey e))
  let fieldErrorsFiltered := fieldErrors.filter (fun fe =>
    !(errorsToRemove.any (fun e => e.position == fe.position && e.length == fe.length)))
  (errors ++ fieldErrorsFiltered).insertionSort posLe

/-- The claim-side description of the schema-validator errors that survive
the merge: those that share their `(position, length)` pair with no
structural error. -/
def survivingFieldErrors (errors fieldErrors : List ValidationError) : List ValidationError :=
  fieldErrors.filter (fun fe =>
    !(errors.any (fun e => e.position == fe.position && e.length == fe.length)))

/-- Decimal digit characters of a natural number, most significant first:
the list `Nat.toDigitsCore` computes with sufficient fuel. -/
def decChars (n : Nat) : List Char :=
  if n < 10 then [Nat.digitChar n]
  else decChars (n / 10) ++ [Nat.digitChar (n % 10)]
decreasing_by exact Nat.div_lt_self (by omega) (by omega)

/-- Read a digit string back as a decimal value. -/
def decVal (l : List Char) : Nat :=
  l.foldl (fun acc c => 10 * acc + (c.toNat - 48)) 0

/-- Token kinds of the lexer.  Modelled from the spec: the module
`lexer.ts` is not in the repository snapshot; spec section 3 lists the
kinds (keyword AND/OR/NOT/IN, field-name, colon, quoted-string, number,
date, wildcard-fragment, range-operator, parens, comma, identifier,
end-of-input), with an extra kind for an unterminated quoted string, which
the spec says is emitted as a distinguishable token rather than aborting. -/
inductive TokenType where
  | AND | OR | NOT | IN
  | FIELD_NAME | COLON | QUOTED_STRING | UNTERMINATED_QUOTE
  | NUMBER | DATE | IDENTIFIER | WILDCARD
  | RANGE_OP | LPAREN | RPAREN | COMMA
  | EOF
  deriving DecidableEq, Repr

/-- A positioned token: `{kind, text, position, length}` (spec section 3). -/
structure Token where
  type : TokenType
  value : String
  position : Nat
  length : Nat
  deriving DecidableEq, Repr

/-- Modelled from the spec: whitespace separators (spec 4.1e) — discarded
but advancing the position counter. -/
def isQueryWs (c : Char) : Bool :=
  c = ' ' || c = '\t' || c = '\n' || c = '\r'

/-- Characters that terminate a word token: whitespace and the structural
separators of spec 4.1e. -/
def isWordDelim (c : Char) : Bool :=
  isQueryWs c || c = '(' || c = ')' || c = ',' || c = ':' || c = '"'

/-- The remaining characters of a word after its first one: stop at a
delimiter or at a `..` range operator (spec 4.1d). -/
def wordTail : List Char → List Char
  | [] => []
  | c :: rest =>
    if isWordDelim c then []
    else if c = '.' && rest.head? = some '.' then []
    else c :: wordTail rest

/-- Modelled from the spec: the number lexical shape (optionally signed,
optionally decimal, spec 4.1c). -/
def isNumberString (w : List Char) : Bool :=
  let body := match w with | '-' :: rest => rest | _ => w
  !body.isEmpty && body.all (fun c => c.isDigit || c = '.') &&
    body.countP (fun c => c = '.') ≤ 1 &&
    (match body.head? with | some c => c.isDigit | none => false) &&
    (match body.getLast? with | some c => c.isDigit | none => false)

/-- Modelled from the spec: the ISO date shape `\d{4}-\d{2}-\d{2}`
(spec 4.1c). -/
def isDateString (w : List Char) : Bool :=
  match w with
  | [y1, y2, y3, y4, '-', m1, m2, '-', d1, d2] =>
      y1.isDigit && y2.isDigit && y3.isDigit && y4.isDigit &&
        m1.isDigit && m2.isDigit && d1.isDigit && d2.isDigit
  | _ => false

/-- Modelled from the spec: classify a completed word that is not a field
name — keywords case-insensitively as standalone words (4.1a), wildcard
fragments, numbers, dates, generic identifiers (4.1f). -/
def classifyWord (w : String) (pos : Nat) : Token :=
  let u := upper w
  if u = "AND" then ⟨.AND, w, pos, w.length⟩
  else if u = "OR" then ⟨.OR, w, pos, w.length⟩
  else if u = "NOT" then ⟨.NOT, w, pos, w.length⟩
  else if u = "IN" then ⟨.IN, w, pos, w.length⟩
  else if w.toList.contains '*' then ⟨.WILDCARD, w, pos, w.length⟩
  else if isNumberString w.toList then ⟨.NUMBER, w, pos, w.length⟩
  else if isDateString w.toList then ⟨.DATE, w, pos, w.length⟩
  else ⟨.IDENTIFIER, w, pos, w.length⟩

/-- Modelled from the spec: the tokenizer loop (spec 4.1), written with a
fuel argument so that it is structurally recursive and kernel-computable;
every step consumes at least one character, so fuel exceeding the number of
remaining characters never runs out. -/
def tokenizeCore : Nat → List Char → Nat → List Token
  | 0, _, _ => []
  | _ + 1, [], _ => []
  | fuel + 1, c :: rest, pos =>
    if isQueryWs c then tokenizeCore fuel rest (pos + 1)
    else if c = '(' then ⟨.LPAREN, "(", pos, 1⟩ :: tokenizeCore fuel rest (pos + 1)
    else if c = ')' then ⟨.RPAREN, ")", pos, 1⟩ :: tokenizeCore fuel rest (pos + 1)
    else if c = ',' then ⟨.COMMA, ",", pos, 1⟩ :: tokenizeCore fuel rest (pos + 1)
    else if c = ':' then ⟨.COLON, ":", pos, 1⟩ :: tokenizeCore fuel rest (pos + 1)
    else if c = '"' then
      if (rest.takeWhile (fun d => d ≠ '"')).length < rest.length then
        ⟨.QUOTED_STRING, ⟨rest.takeWhile (fun d => d ≠ '"')⟩, pos,
            (rest.takeWhile (fun d => d ≠ '"')).length + 2⟩ ::
          tokenizeCore fuel (rest.drop ((rest.takeWhile (fun d => d ≠ '"')).length + 1))
            (pos + (rest.takeWhile (fun d => d ≠ '"')).length + 2)
      else
        [⟨.UNTERMINATED_QUOTE, ⟨rest⟩, pos, rest.length + 1⟩]
    else if c = '>' || c = '<' then
      if rest.head? = some '=' then
        ⟨.RANGE_OP, ⟨[c, '=']⟩, pos, 2⟩ :: tokenizeCore fuel (rest.drop 1) (pos + 2)
      else
        ⟨.RANGE_OP, ⟨[c]⟩, pos, 1⟩ :: tokenizeCore fuel rest (pos + 1)
    else if c = '.' && rest.head? = some '.' then
      ⟨.RANGE_OP, "..", pos, 2⟩ :: tokenizeCore fuel (rest.drop 1) (pos + 2)
    else
      if (rest.drop (wordTail rest).length).head? = some ':' then
        ⟨.FIELD_NAME, ⟨c :: wordTail rest⟩, pos, (c :: wordTail rest).length⟩ ::
          tokenizeCore fuel (rest.drop (wordTail rest).length)
            (pos + (c :: wordTail rest).length)
      else
        classifyWord ⟨c :: wordTail rest⟩ pos ::
          tokenizeCore fuel (rest.drop (wordTail rest).length)
            (pos + (c :: wordTail rest).length)

/-- Modelled from the spec: `tokenize` from the missing `lexer.ts` — a
total function producing the token sequence terminated by an end-of-input
token (spec 4.1). -/
def tokenize (input : String) : List Token :=
  tokenizeCore (input.toList.length + 1) input.toList 0
    ++ [⟨.EOF, "", input.toList.length, 0⟩]

/-- Token stream cursor (`createStream`/`currentToken` from the missing
`lexer.ts`). -/
structure TokenStream where
  tokens : List Token
  index : Nat
  deriving DecidableEq, Repr

/-- Modelled from the spec: `createStream` positions the cursor at the
first token. -/
def createStream (tokens : List Token) : TokenStream := ⟨tokens, 0⟩

/-- Modelled from the spec: `currentToken` reads the token under the
cursor (the stream is always EOF-terminated, so an out-of-range read is
answered with an EOF token). -/
def currentToken (stream : TokenStream) : Token :=
  stream.tokens.getD stream.index ⟨.EOF, "", 0, 0⟩

/-- Advance the cursor one token. -/
def advanceStream (stream : TokenStream) : TokenStream :=
  ⟨stream.tokens, stream.index + 1⟩

/-- First-pass syntax tree.  Modelled from the spec: section 3's "syntax
tree node" kinds (search-term, wildcard-pattern, field:value pair, range,
AND, OR, NOT, IN); `first-pass-parser.ts` itself is missing from the
snapshot.  The IN node is the `InExpression` structure consumed by
`validateInExpression`. -/
inductive FirstPass where
  | TERM (value : String) (position length : Nat)
  | WILDCARD (pre : String) (quoted : Bool) (position length : Nat)
  | FIELD_VALUE (field : Field) (value : Value)
  | RANGE (field : Field) (operator : RangeOperator) (value : Value)
      (value2 : Option Value) (position length : Nat)
  | AND (left right : FirstPass) (position length : Nat)
  | OR (left right : FirstPass) (position length : Nat)
  | NOT (expression : FirstPass) (position length : Nat)
  | IN (expr : InExpression)
  deriving DecidableEq, Repr

/-- Start offset of a first-pass node. -/
def fpStart : FirstPass → Nat
  | .TERM _ p _ => p
  | .WILDCARD _ _ p _ => p
  | .FIELD_VALUE f _ => f.position
  | .RANGE _ _ _ _ p _ => p
  | .AND _ _ p _ => p
  | .OR _ _ p _ => p
  | .NOT _ p _ => p
  | .IN e => e.position

/-- End offset (one past the last character) of a first-pass node. -/
def fpEnd : FirstPass → Nat
  | .TERM _ p l => p + l
  | .WILDCARD _ _ p l => p + l
  | .FIELD_VALUE _ v => v.position + v.length
  | .RANGE _ _ _ _ p l => p + l
  | .AND _ _ p l => p + l
  | .OR _ _ p l => p + l
  | .NOT _ p l => p + l
  | .IN e => e.position + e.length

/-- Parse result record of the first-pass parser: the tree and the stream
position after it (`result.result` / `result.stream` in parser.ts). -/
structure FirstPassResult where
  result : FirstPass
  stream : TokenStream
  deriving Repr

/-- Structural error for a token the parser cannot fit (spec 4.2: the
diagnostic identifies the offending token's position/length). -/
def unexpectedTokenError (t : Token) : ValidationError :=
  { message := "Unexpected token", position := t.position, length := t.length }

/-- Error reported when the fuel of the modelled parser runs out;
unreachable for the fuel supplied by `parseExpression`. -/
def outOfFuelError : ValidationError :=
  { message := "Internal parser error", position := 0, length := 0 }

/-- Token kinds usable as the value in `field:value`, ranges and IN lists. -/
def isValueTokenType : TokenType → Bool
  | .IDENTIFIER => true
  | .NUMBER => true
  | .DATE => true
  | .QUOTED_STRING => true
  | .WILDCARD => true
  | _ => false

/-- Token kinds that can start an atom (spec 6 grammar; used for the
implicit-AND juxtaposition rule). -/
def isAtomStartType : TokenType → Bool
  | .LPAREN => true
  | .NOT => true
  | .FIELD_NAME => true
  | .QUOTED_STRING => true
  | .IDENTIFIER => true
  | .NUMBER => true
  | .DATE => true
  | .WILDCARD => true
  | _ => false

/-- The range operators writable after a colon (".." is excluded here: it
only joins two bound values). -/
def rangeOpOfText (s : String) : Option RangeOperator :=
  if s = ">=" then some .GE
  else if s = ">" then some .GT
  else if s = "<=" then some .LE
  else if s = "<" then some .LT
  else none

/-- Field node from a FIELD_NAME token. -/
def fieldOf (t : Token) : Field := ⟨t.value, t.position, t.length⟩

/-- Value node from a value token (for a quoted string the token text is
already the unquoted content while the length spans the quotes). -/
def valueOf (t : Token) : Value := ⟨t.value, t.position, t.length⟩

/-- Wildcard stem: the characters before the first `*`. -/
def wildcardPre (s : String) : String := ⟨s.data.takeWhile (fun c => c ≠ '*')⟩

/-- Modelled from the spec: parse the parenthesized value list of
`field:IN(v1, v2, ...)` (spec 6), returning the raw value strings and the
closing-paren token. -/
def parseInList : Nat → List String → TokenStream →
    Except ValidationError (List String × Token × TokenStream)
  | 0, _, _ => .error outOfFuelError
  | fuel + 1, acc, s =>
    let t := currentToken s
    if isValueTokenType t.type then
      let s2 := advanceStream s
      if (currentToken s2).type = TokenType.COMMA then
        parseInList fuel (acc ++ [t.value]) (advanceStream s2)
      else if (currentToken s2).type = TokenType.RPAREN then
        .ok (acc ++ [t.value], currentToken s2, advanceStream s2)
      else .error (unexpectedTokenError (currentToken s2))
    else .error (unexpectedTokenError t)

/-- Modelled from the spec: the atoms starting with `field:` — plain
value, range (`field:op v`, `field:v..w`) and IN list (spec 4.2, 6).  The
argument stream is positioned right after the colon. -/
def parseFieldTail (fuel : Nat) (fieldTok : Token) (s : TokenStream) :
    Except ValidationError FirstPassResult :=
  let t := currentToken s
  match rangeOpOfText t.value, t.type with
  | some op, .RANGE_OP =>
    let vt := currentToken (advanceStream s)
    if isValueTokenType vt.type then
      .ok ⟨.RANGE (fieldOf fieldTok) op (valueOf vt) none fieldTok.position
            (vt.position + vt.length - fieldTok.position),
          advanceStream (advanceStream s)⟩
    else .error (unexpectedTokenError vt)
  | _, .IN =>
    let s2 := advanceStream s
    if (currentToken s2).type = TokenType.LPAREN then
      match parseInList fuel [] (advanceStream s2) with
      | .error e => .error e
      | .ok (vals, rp, s3) =>
        .ok ⟨.IN ⟨fieldTok.value, vals, fieldTok.position,
              rp.position + 1 - fieldTok.position⟩, s3⟩
    else .error (unexpectedTokenError (currentToken s2))
  | _, _ =>
    if isValueTokenType t.type then
      let s2 := advanceStream s
      let t2 := currentToken s2
      if t2.type = TokenType.RANGE_OP && t2.value = ".." then
        let vt2 := currentToken (advanceStream s2)
        if isValueTokenType vt2.type then
          .ok ⟨.RANGE (fieldOf fieldTok) .BETWEEN (valueOf t) (some (valueOf vt2))
                fieldTok.position (vt2.position + vt2.length - fieldTok.position),
              advanceStream (advanceStream s2)⟩
        else .error (unexpectedTokenError vt2)
      else
        .ok ⟨.FIELD_VALUE (fieldOf fieldTok) (valueOf t), s2⟩
    else .error (unexpectedTokenError t)

mutual

/-- Modelled from the spec: the OR precedence level (spec 6:
`or := and (OR and)*`), fuel-indexed for structural recursion. -/
def parseOr : Nat → TokenStream → Except ValidationError FirstPassResult
  | 0, _ => .error outOfFuelError
  | fuel + 1, s =>
    match parseAnd fuel s with
    | .error e => .error e
    | .ok first => parseOrRest fuel first

/-- Left-associative folding of `OR and` continuations. -/
def parseOrRest : Nat → FirstPassResult → Except ValidationError FirstPassResult
  | 0, _ => .error outOfFuelError
  | fuel + 1, acc =>
    if (currentToken acc.stream).type = TokenType.OR then
      match parseAnd fuel (advanceStream acc.stream) with
      | .error e => .error e
      | .ok right =>
        parseOrRest fuel ⟨.OR acc.result right.result (fpStart acc.result)
          (fpEnd right.result - fpStart acc.result), right.stream⟩
    else .ok acc

/-- Modelled from the spec: the AND precedence level with implicit-AND
juxtaposition (spec 6: `and := unary (AND? unary)*`). -/
def parseAnd : Nat → TokenStream → Except ValidationError FirstPassResult
  | 0, _ => .error outOfFuelError
  | fuel + 1, s =>
    match parseUnary fuel s with
    | .error e => .error e
    | .ok first => parseAndRest fuel first

/-- Left-associative folding of explicit and implicit AND continuations. -/
def parseAndRest : Nat → FirstPassResult → Except ValidationError FirstPassResult
  | 0, _ => .error outOfFuelError
  | fuel + 1, acc =>
    if (currentToken acc.stream).type = TokenType.AND then
      match parseUnary fuel (advanceStream acc.stream) with
      | .error e => .error e
      | .ok right =>
        parseAndRest fuel ⟨.AND acc.result right.result (fpStart acc.result)
          (fpEnd right.result - fpStart acc.result), right.stream⟩
    else if isAtomStartType (currentToken acc.stream).type then
      match parseUnary fuel acc.stream with
      | .error e => .error e
      | .ok right =>
        parseAndRest fuel ⟨.AND acc.result right.result (fpStart acc.result)
          (fpEnd right.result - fpStart acc.result), right.stream⟩
    else .ok acc

/-- Modelled from the spec: `unary := NOT unary | atom` (spec 6). -/
def parseUnary : Nat → TokenStream → Except ValidationError FirstPassResult
  | 0, _ => .error outOfFuelError
  | fuel + 1, s =>
    if (currentToken s).type = TokenType.NOT then
      match parseUnary fuel (advanceStream s) with
      | .error e => .error e
      | .ok inner =>
        .ok ⟨.NOT inner.result (currentToken s).position
          (fpEnd inner.result - (currentToken s).position), inner.stream⟩
    else parsePrimary fuel s

/-- Modelled from the spec: atoms — parenthesized group, quoted or bare
term, wildcard, and the `field:` forms (spec 4.2, 6); fails fast with a
diagnostic at the offending token. -/
def parsePrimary : Nat → TokenStream → Except ValidationError FirstPassResult
  | 0, _ => .error outOfFuelError
  | fuel + 1, s =>
    let t := currentToken s
    match t.type with
    | .LPAREN =>
      (match parseOr fuel (advanceStream s) with
      | .error e => .error e
      | .ok inner =>
        if (currentToken inner.stream).type = TokenType.RPAREN then
          .ok ⟨inner.result, advanceStream inner.stream⟩
        else .error (unexpectedTokenError (currentToken inner.stream)))
    | .QUOTED_STRING =>
      if t.value.data.getLast? = some '*' then
        .ok ⟨.WILDCARD ⟨t.value.data.dropLast⟩ true t.position t.length, advanceStream s⟩
      else
        .ok ⟨.TERM t.value t.position t.length, advanceStream s⟩
    | .IDENTIFIER => .ok ⟨.TERM t.value t.position t.length, advanceStream s⟩
    | .NUMBER => .ok ⟨.TERM t.value t.position t.length, advanceStream s⟩
    | .DATE => .ok ⟨.TERM t.value t.position t.length, advanceStream s⟩
    | .WILDCARD =>
      .ok ⟨.WILDCARD (wildcardPre t.value) false t.position t.length, advanceStream s⟩
    | .FIELD_NAME =>
      let s1 := advanceStream s
      if (currentToken s1).type = TokenType.COLON then
        parseFieldTail fuel t (advanceStream s1)
      else .error (unexpectedTokenError (currentToken s1))
    | _ => .error (unexpectedTokenError t)

end

/-- Modelled from the spec: `parseExpression` from the missing
`first-pass-parser.ts` — parse one whole expression at the top precedence
level.  The fuel bound is generous: every parser step either consumes a
token or descends one precedence level. -/
def parseExpression (stream : TokenStream) : Except ValidationError FirstPassResult :=
  parseOr (4 * stream.tokens.length + 8) stream

/-- The two field-name checks shared by every field-bearing node
(spec 4.3), matching the first two blocks of `validateInExpression`. -/
def validateFieldName (field : Field) : List ValidationError :=
  (if !(isValidFieldName field.value) then
    [{ message := "Invalid characters in field name",
       code := some .INVALID_FIELD_CHARS,
       position := field.position,
       length := field.value.length }]
   else []) ++
  (if reservedWords.contains (upper field.value) then
    [{ message := field.value ++ " is a reserved word",
       code := some .RESERVED_WORD_AS_FIELD,
       value := some field.value,
       position := field.position,
       length := field.value.length }]
   else [])

/-- Modelled from the spec: `validateSearchQuery` from the missing
`validator.ts` (spec 4.3) — walk every node, accumulate the context-free
checks, never throw; IN nodes go through `validateInExpression`. -/
def validateSearchQuery : FirstPass → List ValidationError
  | .TERM _ _ _ => []
  | .WILDCARD _ _ _ _ => []
  | .FIELD_VALUE f _ => validateFieldName f
  | .RANGE f _ _ _ _ _ => validateFieldName f
  | .AND l r _ _ => validateSearchQuery l ++ validateSearchQuery r
  | .OR l r _ _ => validateSearchQuery l ++ validateSearchQuery r
  | .NOT e _ _ => validateSearchQuery e
  | .IN e => validateInExpression e []

/-- Schema type-compatibility diagnostic for one value (spec 4.4). -/
def typeCheckValue (schemaMap : List (String × FieldSchema)) (f : Field) (v : Value) :
    List ValidationError :=
  match schemaMap.lookup (lower f.value) with
  | some schema =>
    if schema.type = "number" && !(isNumberString v.value.data) then
      [{ message := "Expected number", code := some .TYPE_MISMATCH,
         position := v.position, length := v.length }]
    else if schema.type = "date" && !(isDateString v.value.data) then
      [{ message := "Expected date", code := some .TYPE_MISMATCH,
         position := v.position, length := v.length }]
    else []
  | none => []

/-- Unknown-field diagnostic positioned at the field's span (spec 8). -/
def unknownFieldError (name : String) (position : Nat) : ValidationError :=
  { message := "Unknown field: " ++ name, code := some .UNKNOWN_FIELD,
    position := position, length := name.length }

/-- Modelled from the spec: `validateExpressionFields` from the missing
`validate-expression-fields.ts` (spec 4.4) — for every field-bearing node
emit an unknown-field diagnostic when the field is absent from the column
set, otherwise check operator/value type compatibility; appends to the
accumulator as the TS version pushes into its output array. -/
def validateExpressionFields (e : FirstPass) (columnSet : List String)
    (errors : List ValidationError) (schemaMap : List (String × FieldSchema)) :
    List ValidationError :=
  match e with
  | .TERM _ _ _ => errors
  | .WILDCARD _ _ _ _ => errors
  | .FIELD_VALUE f v =>
    errors ++ (if !(columnSet.contains (lower f.value)) then
      [unknownFieldError f.value f.position]
    else typeCheckValue schemaMap f v)
  | .RANGE f _ v v2 _ _ =>
    errors ++ (if !(columnSet.contains (lower f.value)) then
      [unknownFieldError f.value f.position]
    else typeCheckValue schemaMap f v ++
      (match v2 with | some w => typeCheckValue schemaMap f w | none => []))
  | .AND l r _ _ =>
    validateExpressionFields r columnSet
      (validateExpressionFields l columnSet errors schemaMap) schemaMap
  | .OR l r _ _ =>
    validateExpressionFields r columnSet
      (validateExpressionFields l columnSet errors schemaMap) schemaMap
  | .NOT e1 _ _ => validateExpressionFields e1 columnSet errors schemaMap
  | .IN ie =>
    errors ++ (if !(columnSet.contains (lower ie.field)) then
      [unknownFieldError ie.field ie.position]
    else [])

/-- Modelled from the spec: `transformToExpression` from the missing
`transform-to-expression.ts` (spec 4.6) — the one-to-one structural
mapping from the validated syntax tree to the semantic `Expression`.  The
per-value token positions of an IN node are not threaded through the
first pass (spec 9 records this as a known limitation), so the value
nodes it produces carry position 0. -/
def transformToExpression (e : FirstPass) (schemaMap : List (String × FieldSchema)) :
    Expression :=
  match e with
  | .TERM v p l => .SEARCH_TERM v p l
  | .WILDCARD pre q p l => .WILDCARD pre q p l
  | .FIELD_VALUE f v => .FIELD_VALUE f v
  | .RANGE f op v v2 p l => .RANGE f op v v2 p l
  | .AND l r p ln =>
    .AND (transformToExpression l schemaMap) (transformToExpression r schemaMap) p ln
  | .OR l r p ln =>
    .OR (transformToExpression l schemaMap) (transformToExpression r schemaMap) p ln
  | .NOT e1 p ln => .NOT (transformToExpression e1 schemaMap) p ln
  | .IN ie =>
    .IN ⟨ie.field, ie.position, ie.field.length⟩
      (ie.values.map (fun v => ⟨v, 0, v.length⟩)) ie.position ie.length

/-- The tagged union returned by `parseSearchInputQuery`: a
`SEARCH_QUERY` (expression or null, no errors field) or a
`SEARCH_QUERY_ERROR` (null expression, error list). -/
inductive ParseResult where
  | query (expression : Option Expression)
  | queryError (errors : List ValidationError)
  deriving DecidableEq, Repr

/-- `parseSearchInputQuery` from parser.ts (lines 129-208), with the five
pipeline stages passed as parameters.  Every stage returns `Except`; an
`Except.error` models a thrown JS exception, which the surrounding
`try/catch` turns into a single-element `SEARCH_QUERY_ERROR` — both the
first-pass-parser throw and the explicit leftover-token throw of lines
143-149 are caught by the same handler. -/
def parseSearchInputQueryWith
    (tok : String → Except ValidationError (List Token))
    (par : TokenStream → Except ValidationError FirstPassResult)
    (val : FirstPass → Except ValidationError (List ValidationError))
    (vf : FirstPass → List String → List ValidationError →
      List (String × FieldSchema) → Except ValidationError (List ValidationError))
    (tr : FirstPass → List (String × FieldSchema) → Except ValidationError Expression)
    (input : String) (fieldSchemas : List FieldSchema) : ParseResult :=
  match tok input with
  | .error e => .queryError [e]
  | .ok tokens =>
    let stream := createStream tokens
    if (currentToken stream).type = TokenType.EOF then
      .query none
    else
      match par stream with
      | .error e => .queryError [e]
      | .ok result =>
        if (currentToken result.stream).type ≠ TokenType.EOF then
          -- throw { message: 'Unexpected ")"', position, length }
          .queryError [{ message := "Unexpected \")\"",
                         position := (currentToken result.stream).position,
                         length := (currentToken result.stream).length }]
        else
          match val result.result with
          | .error e => .queryError [e]
          | .ok errors =>
            let allowedFields := fieldSchemas.map (fun sc => lower sc.name)
            match (if allowedFields.length > 0 then
                vf result.result (allowedFields.map (fun col => lower col)) []
                  (fieldSchemas.map (fun sc => (lower sc.name, sc)))
              else .ok []) with
            | .error e => .queryError [e]
            | .ok fieldErrors =>
              let allErrors := mergeErrors errors fieldErrors
              if allErrors.length > 0 then
                .queryError allErrors
              else
                match tr result.result (fieldSchemas.map (fun sc => (lower sc.name, sc))) with
                | .error e => .queryError [e]
                | .ok expression => .query (some expression)

/-- `parseSearchInputQuery` with the concrete pipeline stages (the
tokenizer and validators are total, so they are injected with `.ok`). -/
def parseSearchInputQuery (input : String) (fieldSchemas : List FieldSchema) :
    ParseResult :=
  parseSearchInputQueryWith (fun str => .ok (tokenize str)) parseExpression
    (fun e => .ok (validateSearchQuery e))
    (fun e cs acc m => .ok (validateExpressionFields e cs acc m))
    (fun e m => .ok (transformToExpression e m)) input fieldSchemas

/-- The merged diagnostic list the pipeline computes for an input, when it
gets that far: `none` when tokenizing/parsing fails structurally before
the validators run, `some []` for empty input. -/
def mergedDiagnostics (input : String) (fieldSchemas : List FieldSchema) :
    Option (List ValidationError) :=
  let stream := createStream (tokenize input)
  if (currentToken stream).type = TokenType.EOF then some []
  else
    match parseExpression stream with
    | .error _ => none
    | .ok result =>
      if (currentToken result.stream).type ≠ TokenType.EOF then none
      else
        let errors := validateSearchQuery result.result
        let allowedFields := fieldSchemas.map (fun sc => lower sc.name)
        let fieldErrors := if allowedFields.length > 0 then
            validateExpressionFields result.result
              (allowedFields.map (fun col => lower col)) []
              (fieldSchemas.map (fun sc => (lower sc.name, sc)))
          else []
        some (mergeErrors errors fieldErrors)

end SIQ

namespace SIQ

theorem toDigitsCore_eq_decChars :
    ∀ f n acc, n < 10 ^ (f + 1) →
      Nat.toDigitsCore 10 (f + 1) n acc = decChars n ++ acc := by
  intro f
  induction f with
  | zero =>
    intro n acc h
    have h10 : n < 10 := by simpa using h
    have hdiv : n / 10 = 0 := Nat.div_eq_of_lt h10
    simp [Nat.toDigitsCore, hdiv, decChars, h10, Nat.mod_eq_of_lt h10]
  | succ f ih =>
    intro n acc h
    by_cases h10 : n < 10
    · have hdiv : n / 10 = 0 := Nat.div_eq_of_lt h10
      simp [Nat.toDigitsCore, hdiv, decChars, h10, Nat.mod_eq_of_lt h10]
    · have hdiv : n / 10 ≠ 0 := by
        intro h0
        exact h10 (by omega)
      have hlt : n / 10 < 10 ^ (f + 1) := by
        rw [Nat.div_lt_iff_lt_mul (by omega)]
        calc n < 10 ^ (f + 1 + 1) := h
          _ = 10 ^ (f + 1) * 10 := by ring
      have := ih (n / 10) (Nat.digitChar (n % 10) :: acc) hlt
      rw [Nat.toDigitsCore]
      simp only [hdiv, if_false]
      rw [this]
      conv_rhs => rw [decChars]
      simp [h10]

/-- Nat.repr computes exactly the decChars digit string. -/
theorem repr_eq_decChars (n : Nat) : Nat.repr n = (decChars n).asString := by
  have hn : n < 10 ^ (n + 1) := by
    calc n < 10 ^ n := Nat.lt_pow_self (by omega) n
      _ ≤ 10 ^ (n + 1) := Nat.pow_le_pow_right (by omega) (by omega)
  show (Nat.toDigits 10 n).asString = (decChars n).asString
  rw [Nat.toDigits, toDigitsCore_eq_decChars n n [] hn, List.append_nil]

theorem digitChar_toNat {d : Nat} (h : d < 10) : (Nat.digitChar d).toNat = d + 48 := by
  interval_cases d <;> decide

theorem digitChar_isDigit {d : Nat} (h : d < 10) : (Nat.digitChar d).isDigit = true := by
  interval_cases d <;> decide

theorem decVal_append_digit (xs : List Char) (c : Char) :
    decVal (xs ++ [c]) = 10 * decVal xs + (c.toNat - 48) := by
  simp [decVal, List.foldl_append]

theorem decVal_decChars (n : Nat) : decVal (decChars n) = n := by
  induction n using Nat.strong_induction_on with
  | _ n ih =>
    by_cases h10 : n < 10
    · rw [decChars]
      simp only [h10, if_true]
      simp [decVal, digitChar_toNat h10]
    · rw [decChars]
      simp only [h10, if_false]
      rw [decVal_append_digit]
      rw [show decVal (decChars (n / 10)) = n / 10 from
        ih (n / 10) (Nat.div_lt_self (by omega) (by omega))]
      rw [digitChar_toNat (Nat.mod_lt n (by omega))]
      omega

theorem decChars_isDigit (n : Nat) : ∀ c ∈ decChars n, c.isDigit = true := by
  induction n using Nat.strong_induction_on with
  | _ n ih =>
    intro c hc
    by_cases h10 : n < 10
    · rw [decChars] at hc
      simp only [h10, if_true, List.mem_singleton] at hc
      exact hc ▸ digitChar_isDigit h10
    · rw [decChars] at hc
      simp only [h10, if_false, List.mem_append, List.mem_singleton] at hc
      rcases hc with hc | hc
      · exact ih (n / 10) (Nat.div_lt_self (by omega) (by omega)) c hc
      · exact hc ▸ digitChar_isDigit (Nat.mod_lt n (by omega))

theorem repr_inj {m n : Nat} (h : Nat.repr m = Nat.repr n) : m = n := by
  rw [repr_eq_decChars, repr_eq_decChars] at h
  have hd : decChars m = decChars n := by
    have := congrArg String.data h
    simpa [List.asString] using this
  calc m = decVal (decChars m) := (decVal_decChars m).symm
    _ = decVal (decChars n) := by rw [hd]
    _ = n := decVal_decChars n

/-- Unique decomposition of a digits-dash-rest character list at the first
dash. -/
theorem append_dash_inj :
    ∀ (a₁ : List Char) {a₂ b₁ b₂ : List Char},
      (∀ c ∈ a₁, c.isDigit = true) → (∀ c ∈ a₂, c.isDigit = true) →
      a₁ ++ '-' :: b₁ = a₂ ++ '-' :: b₂ → a₁ = a₂ ∧ b₁ = b₂ := by
  intro a₁
  induction a₁ with
  | nil =>
    intro a₂ b₁ b₂ _ h₂ h
    cases a₂ with
    | nil => simpa using h
    | cons c a₂' =>
      simp only [List.nil_append, List.cons_append, List.cons.injEq] at h
      have : c.isDigit = true := h₂ c (by simp)
      rw [← h.1] at this
      simp [Char.isDigit] at this
  | cons c a₁' ih =>
    intro a₂ b₁ b₂ h₁ h₂ h
    cases a₂ with
    | nil =>
      simp only [List.cons_append, List.nil_append, List.cons.injEq] at h
      have : c.isDigit = true := h₁ c (by simp)
      rw [h.1] at this
      simp [Char.isDigit] at this
    | cons d a₂' =>
      simp only [List.cons_append, List.cons.injEq] at h
      obtain ⟨hcd, hrest⟩ := h
      have := ih (fun x hx => h₁ x (by simp [hx])) (fun x hx => h₂ x (by simp [hx])) hrest
      exact ⟨by simp [hcd, this.1], this.2⟩

/-- The merge key collides exactly on equal `(position, length)` pairs. -/
theorem errKey_eq_iff (e₁ e₂ : ValidationError) :
    errKey e₁ = errKey e₂ ↔ e₁.position = e₂.position ∧ e₁.length = e₂.length := by
  constructor
  · intro h
    have hdata := congrArg String.data h
    simp only [errKey, String.data_append, repr_eq_decChars] at hdata
    have h' : decChars e₁.position ++ '-' :: (decChars e₁.length) =
        decChars e₂.position ++ '-' :: (decChars e₂.length) := by
      simpa [List.asString, List.append_assoc] using hdata
    obtain ⟨hp, hl⟩ := append_dash_inj _ (decChars_isDigit _) (decChars_isDigit _) h'
    constructor
    · have := congrArg decVal hp
      simpa [decVal_decChars] using this
    · have := congrArg decVal hl
      simpa [decVal_decChars] using this
  · intro ⟨hp, hl⟩
    simp [errKey, hp, hl]

/-- The roundabout double filter of parser.ts lines 170-181 is the direct
filter: a schema error survives iff no structural error shares its
`(position, length)` pair. -/
theorem fieldErrorsFiltered_eq (errors fieldErrors : List ValidationError) :
    fieldErrors.filter (fun fe =>
      !((errors.filter (fun e => (fieldErrors.map errKey).contains (errKey e))).any
        (fun e => e.position == fe.position && e.length == fe.length)))
      = survivingFieldErrors errors fieldErrors := by
  unfold survivingFieldErrors
  refine List.filter_congr (fun fe hfe => ?_)
  congr 1
  rcases hany : errors.any (fun e => e.position == fe.position && e.length == fe.length) with _ | _
  · rcases hany2 : (errors.filter (fun e => (fieldErrors.map errKey).contains (errKey e))).any
        (fun e => e.position == fe.position && e.length == fe.length) with _ | _
    · rfl
    · exfalso
      obtain ⟨e, he, hpe⟩ := List.any_eq_true.mp hany2
      have : e ∈ errors := (List.mem_filter.mp he).1
      have : errors.any (fun e => e.position == fe.position && e.length == fe.length) = true :=
        List.any_eq_true.mpr ⟨e, this, hpe⟩
      rw [hany] at this
      cases this
  · obtain ⟨e, he, hpe⟩ := List.any_eq_true.mp hany
    have hkey : errKey e = errKey fe := by
      rw [errKey_eq_iff]
      simp only [Bool.and_eq_true, beq_iff_eq] at hpe
      exact hpe
    have hmem : (fieldErrors.map errKey).contains (errKey e) = true := by
      rw [hkey]
      simp only [List.contains, List.elem_eq_mem, decide_eq_true_eq]
      exact List.mem_map_of_mem errKey hfe
    have : e ∈ errors.filter (fun e => (fieldErrors.map errKey).contains (errKey e)) :=
      List.mem_filter.mpr ⟨he, hmem⟩
    rw [List.any_eq_true.mpr ⟨e, this, hpe⟩]

/-- Spelling out `validateInExpression` as a concatenation of its three
blocks. -/
theorem validateInExpression_eq (expr : InExpression) (errors : List ValidationError) :
    validateInExpression expr errors =
      errors ++
      (if !(isValidFieldName expr.field) then
        [{ message := "Invalid characters in field name",
           code := some .INVALID_FIELD_CHARS,
           position := expr.position,
           length := expr.field.length }]
       else []) ++
      (if reservedWords.contains (upper expr.field) then
        [{ message := expr.field ++ " is a reserved word",
           code := some .RESERVED_WORD_AS_FIELD,
           value := some expr.field,
           position := expr.position,
           length := expr.field.length }]
       else []) ++
      inValueErrors expr := by
  unfold validateInExpression inValueErrors
  split <;> split <;> simp

/-- Every diagnostic in the values block carries the INVALID_IN_VALUE code. -/
theorem inValueErrors_code {expr : InExpression} {e : ValidationError}
    (h : e ∈ inValueErrors expr) : e.code = some .INVALID_IN_VALUE := by
  unfold inValueErrors at h
  obtain ⟨p, _, hp⟩ := List.mem_filterMap.mp h
  split at hp
  · injection hp with hp
    subst hp
    rfl
  · cases hp

/-- With enough fuel, the tokenizer returns no token exactly on
whitespace-only input. -/
theorem tokenizeCore_eq_nil_iff :
    ∀ (fuel : Nat) (cs : List Char) (pos : Nat), cs.length < fuel →
      (tokenizeCore fuel cs pos = [] ↔ cs.all isQueryWs = true) := by
  intro fuel
  induction fuel with
  | zero => intro cs pos h; omega
  | succ fuel ih =>
    intro cs pos h
    cases cs with
    | nil => simp [tokenizeCore]
    | cons c rest =>
      by_cases hws : isQueryWs c
      · rw [tokenizeCore]
        simp only [hws, if_true, List.all_cons, Bool.true_and]
        exact ih rest (pos + 1) (by simp at h; omega)
      · refine iff_of_false ?_ (by simp [hws])
        rw [tokenizeCore]
        simp only [hws, Bool.false_eq_true, if_false]
        repeat' split
        all_goals simp

/-- Classified words are never EOF tokens. -/
theorem classifyWord_type_ne_eof (w : String) (pos : Nat) :
    (classifyWord w pos).type ≠ TokenType.EOF := by
  unfold classifyWord
  repeat (first | split | simp)

/-- The tokenizer core never emits an EOF-typed token. -/
theorem tokenizeCore_no_eof :
    ∀ (fuel : Nat) (cs : List Char) (pos : Nat) (t : Token),
      t ∈ tokenizeCore fuel cs pos → t.type ≠ TokenType.EOF := by
  intro fuel
  induction fuel with
  | zero => intro cs pos t ht; simp [tokenizeCore] at ht
  | succ fuel ih =>
    intro cs pos t ht hEOF
    cases cs with
    | nil => simp [tokenizeCore] at ht
    | cons c rest =>
      rw [tokenizeCore] at ht
      repeat' split at ht
      all_goals
        first
        | exact ih _ _ t ht hEOF
        | (rcases List.mem_cons.mp ht with h | h
           · rw [h] at hEOF
             first
             | cases hEOF
             | exact classifyWord_type_ne_eof _ _ hEOF
           · first
             | exact ih _ _ t h hEOF
             | (cases h))

/-- The first token of `tokenize input` is EOF exactly on whitespace-only
input. -/
theorem firstToken_eof_iff (input : String) :
    ((currentToken (createStream (tokenize input))).type = TokenType.EOF ↔
      input.toList.all isQueryWs = true) := by
  have hlen : input.toList.length < input.toList.length + 1 := Nat.lt_succ_self _
  have hnil := tokenizeCore_eq_nil_iff (input.toList.length + 1) input.toList 0 hlen
  rcases hcore : tokenizeCore (input.toList.length + 1) input.toList 0 with _ | ⟨t, ts⟩
  · have hcur : currentToken (createStream (tokenize input))
        = ⟨TokenType.EOF, "", input.toList.length, 0⟩ := by
      unfold currentToken createStream tokenize
      rw [hcore]
      rfl
    rw [hcur]
    exact iff_of_true rfl (hnil.mp hcore)
  · have hcur : currentToken (createStream (tokenize input)) = t := by
      unfold currentToken createStream tokenize
      rw [hcore]
      rfl
    rw [hcur]
    refine iff_of_false (tokenizeCore_no_eof _ _ _ t (by rw [hcore]; simp)) ?_
    intro hall
    rw [hnil.mpr hall] at hcore
    cases hcore

section

variable (tok : String → Except ValidationError (List Token))
  (par : TokenStream → Except ValidationError FirstPassResult)
  (val : FirstPass → Except ValidationError (List ValidationError))
  (vf : FirstPass → List String → List ValidationError →
    List (String × FieldSchema) → Except ValidationError (List ValidationError))
  (tr : FirstPass → List (String × FieldSchema) → Except ValidationError Expression)
  (input : String) (fieldSchemas : List FieldSchema)

/-- A tokenizer throw is caught and returned alone. -/
theorem parseWith_tok_error {e : ValidationError} (htok : tok input = .error e) :
    parseSearchInputQueryWith tok par val vf tr input fieldSchemas = .queryError [e] := by
  unfold parseSearchInputQueryWith
  simp only [htok]

/-- An EOF-first token stream short-circuits to the null expression. -/
theorem parseWith_eof {ts : List Token} (htok : tok input = .ok ts)
    (heof : (currentToken (createStream ts)).type = TokenType.EOF) :
    parseSearchInputQueryWith tok par val vf tr input fieldSchemas = .query none := by
  unfold parseSearchInputQueryWith
  simp [htok, heof]

/-- A first-pass-parser throw is caught and returned alone. -/
theorem parseWith_par_error {ts : List Token} {e : ValidationError}
    (htok : tok input = .ok ts)
    (hne : (currentToken (createStream ts)).type ≠ TokenType.EOF)
    (hpar : par (createStream ts) = .error e) :
    parseSearchInputQueryWith tok par val vf tr input fieldSchemas = .queryError [e] := by
  unfold parseSearchInputQueryWith
  simp [htok, hne, hpar]

/-- A token stream not fully consumed raises the single leftover-token
structural error of parser.ts lines 143-149. -/
theorem parseWith_leftover {ts : List Token} {r : FirstPassResult}
    (htok : tok input = .ok ts)
    (hne : (currentToken (createStream ts)).type ≠ TokenType.EOF)
    (hpar : par (createStream ts) = .ok r)
    (hleft : (currentToken r.stream).type ≠ TokenType.EOF) :
    parseSearchInputQueryWith tok par val vf tr input fieldSchemas
      = .queryError [{ message := "Unexpected \")\"",
                       position := (currentToken r.stream).position,
                       length := (currentToken r.stream).length }] := by
  unfold parseSearchInputQueryWith
  simp [htok, hne, hpar, hleft]

/-- A structural-validator throw is caught and returned alone. -/
theorem parseWith_val_error {ts : List Token} {r : FirstPassResult} {e : ValidationError}
    (htok : tok input = .ok ts)
    (hne : (currentToken (createStream ts)).type ≠ TokenType.EOF)
    (hpar : par (createStream ts) = .ok r)
    (hleft : (currentToken r.stream).type = TokenType.EOF)
    (hval : val r.result = .error e) :
    parseSearchInputQueryWith tok par val vf tr input fieldSchemas = .queryError [e] := by
  unfold parseSearchInputQueryWith
  simp [htok, hne, hpar, hleft, hval]

/-- A schema-validator throw is caught and returned alone. -/
theorem parseWith_vf_error {ts : List Token} {r : FirstPassResult} {errors : List ValidationError}
    {e : ValidationError}
    (htok : tok input = .ok ts)
    (hne : (currentToken (createStream ts)).type ≠ TokenType.EOF)
    (hpar : par (createStream ts) = .ok r)
    (hleft : (currentToken r.stream).type = TokenType.EOF)
    (hval : val r.result = .ok errors)
    (hvf : (if (fieldSchemas.map (fun sc => lower sc.name)).length > 0 then
        vf r.result ((fieldSchemas.map (fun sc => lower sc.name)).map (fun col => lower col)) []
          (fieldSchemas.map (fun sc => (lower sc.name, sc)))
      else .ok []) = .error e) :
    parseSearchInputQueryWith tok par val vf tr input fieldSchemas = .queryError [e] := by
  simp only [gt_iff_lt, List.length_map, List.map_map] at hvf
  unfold parseSearchInputQueryWith
  simp [htok, hne, hpar, hleft, hval, hvf]

/-- A non-empty merged diagnostic list is returned as the error bundle. -/
theorem parseWith_merged {ts : List Token} {r : FirstPassResult}
    {errors fieldErrors : List ValidationError}
    (htok : tok input = .ok ts)
    (hne : (currentToken (createStream ts)).type ≠ TokenType.EOF)
    (hpar : par (createStream ts) = .ok r)
    (hleft : (currentToken r.stream).type = TokenType.EOF)
    (hval : val r.result = .ok errors)
    (hvf : (if (fieldSchemas.map (fun sc => lower sc.name)).length > 0 then
        vf r.result ((fieldSchemas.map (fun sc => lower sc.name)).map (fun col => lower col)) []
          (fieldSchemas.map (fun sc => (lower sc.name, sc)))
      else .ok []) = .ok fieldErrors)
    (hlen : (mergeErrors errors fieldErrors).length > 0) :
    parseSearchInputQueryWith tok par val vf tr input fieldSchemas
      = .queryError (mergeErrors errors fieldErrors) := by
  simp only [gt_iff_lt, List.length_map, List.map_map] at hvf
  unfold parseSearchInputQueryWith
  simp [htok, hne, hpar, hleft, hval, hvf, hlen]

/-- An empty merged diagnostic list reaches the transformer; its throw is
caught and returned alone, and its success is the returned expression. -/
theorem parseWith_after_merge {ts : List Token} {r : FirstPassResult}
    {errors fieldErrors : List ValidationError}
    (htok : tok input = .ok ts)
    (hne : (currentToken (createStream ts)).type ≠ TokenType.EOF)
    (hpar : par (createStream ts) = .ok r)
    (hleft : (currentToken r.stream).type = TokenType.EOF)
    (hval : val r.result = .ok errors)
    (hvf : (if (fieldSchemas.map (fun sc => lower sc.name)).length > 0 then
        vf r.result ((fieldSchemas.map (fun sc => lower sc.name)).map (fun col => lower col)) []
          (fieldSchemas.map (fun sc => (lower sc.name, sc)))
      else .ok []) = .ok fieldErrors)
    (hnil : mergeErrors errors fieldErrors = []) :
    parseSearchInputQueryWith tok par val vf tr input fieldSchemas
      = (match tr r.result (fieldSchemas.map (fun sc => (lower sc.name, sc))) with
        | .error e => .queryError [e]
        | .ok expression => .query (some expression)) := by
  simp only [gt_iff_lt, List.length_map, List.map_map] at hvf
  unfold parseSearchInputQueryWith
  simp [htok, hne, hpar, hleft, hval, hvf, hnil]

end

/-- The merge is the stable sort of structural errors followed by the
surviving schema errors. -/
theorem mergeErrors_eq_sort (errors fieldErrors : List ValidationError) :
    mergeErrors errors fieldErrors
      = (errors ++ survivingFieldErrors errors fieldErrors).insertionSort posLe := by
  simp only [mergeErrors]
  rw [fieldErrorsFiltered_eq]

/-- The schema-validator stage of the concrete pipeline never throws: the
guarded call reduces to an `ok` of the corresponding guarded error list. -/
theorem concreteFieldErrors_eq (r : FirstPassResult) (fieldSchemas : List FieldSchema) :
    ((if (fieldSchemas.map (fun sc => lower sc.name)).length > 0 then
        (fun e cs acc m => Except.ok (validateExpressionFields e cs acc m)) r.result
          ((fieldSchemas.map (fun sc => lower sc.name)).map (fun col => lower col)) []
          (fieldSchemas.map (fun sc => (lower sc.name, sc)))
      else .ok []) : Except ValidationError (List ValidationError))
    = Except.ok (if (fieldSchemas.map (fun sc => lower sc.name)).length > 0 then
        validateExpressionFields r.result
          ((fieldSchemas.map (fun sc => lower sc.name)).map (fun col => lower col)) []
          (fieldSchemas.map (fun sc => (lower sc.name, sc)))
      else []) := by
  split <;> rfl

end SIQ

/-- C3: in the error merge, a schema-validator error sharing its
`(position, length)` pair with a structural-validator error is dropped and
the structural one kept; the returned list is a permutation of the
structural errors followed by the surviving schema errors, it is sorted
ascending by position, and within each position the original
(structural-then-schema, discovery-ordered) relative order is preserved
(stability). -/
theorem C3_error_merge_precedence (errors fieldErrors : List SIQ.ValidationError) :
    List.Perm (SIQ.mergeErrors errors fieldErrors)
        (errors ++ SIQ.survivingFieldErrors errors fieldErrors) ∧
    (SIQ.mergeErrors errors fieldErrors).Sorted SIQ.posLe ∧
    ∀ p : Nat, (SIQ.mergeErrors errors fieldErrors).filter (fun e => e.position == p)
      = (errors ++ SIQ.survivingFieldErrors errors fieldErrors).filter
          (fun e => e.position == p) := by
  have hme := SIQ.mergeErrors_eq_sort errors fieldErrors
  refine ⟨?_, ?_, ?_⟩
  · rw [hme]
    exact List.perm_insertionSort _ _
  · rw [hme]
    exact List.sorted_insertionSort SIQ.posLe _
  · intro p
    rw [hme]
    have hApair : ((errors ++ SIQ.survivingFieldErrors errors fieldErrors).filter
        (fun e => e.position == p)).Pairwise SIQ.posLe := by
      refine List.pairwise_of_forall_mem_list (fun a ha b hb => ?_)
      have hap : a.position = p := by simpa using (List.mem_filter.mp ha).2
      have hbp : b.position = p := by simpa using (List.mem_filter.mp hb).2
      show a.position ≤ b.position
      omega
    have hsub : List.Sublist
        ((errors ++ SIQ.survivingFieldErrors errors fieldErrors).filter
          (fun e => e.position == p))
        ((errors ++ SIQ.survivingFieldErrors errors fieldErrors).insertionSort SIQ.posLe) :=
      List.sublist_insertionSort hApair (List.filter_sublist _)
    have hsub2 : List.Sublist
        ((errors ++ SIQ.survivingFieldErrors errors fieldErrors).filter
          (fun e => e.position == p))
        (((errors ++ SIQ.survivingFieldErrors errors fieldErrors).insertionSort
            SIQ.posLe).filter (fun e => e.position == p)) := by
      have h2 := hsub.filter (fun e => e.position == p)
      rwa [List.filter_eq_self.mpr
        (fun a ha => (List.mem_filter.mp ha).2)] at h2
    have hperm : List.Perm
        (((errors ++ SIQ.survivingFieldErrors errors fieldErrors).insertionSort
          SIQ.posLe).filter (fun e => e.position == p))
        ((errors ++ SIQ.survivingFieldErrors errors fieldErrors).filter
            (fun e => e.position == p)) :=
      (List.perm_insertionSort _ _).filter _
    exact (hsub2.eq_of_length hperm.length_eq.symm).symm

/-- C5 counterexample: the claim says a SEARCH_TERM is quoted exactly when it
contains whitespace, but `stringify` quotes only on the space character:
the term `a\tb` contains a tab (whitespace) yet is rendered unquoted. -/
theorem C5_whitespace_counterexample :
    SIQ.stringify (.SEARCH_TERM "a\tb" 0 3) = "a\tb" ∧
    SIQ.stringify (.SEARCH_TERM "a\tb" 0 3) ≠ SIQ.specTermText "a\tb" ∧
    ("a\tb".toList.any Char.isWhitespace) = true := by
  refine ⟨by decide, ?_, by decide⟩
  decide

/-- C5 (amended): `stringify` renders every Expression by these rules: a
SEARCH_TERM is quoted exactly when it contains a space character U+0020; a
WILDCARD renders as `prefix*`, quoted when originally quoted; a FIELD_VALUE
renders as `field:value`; a RANGE renders as `field:op value` for the four
comparison operators and as `field:value..value2` for BETWEEN; NOT renders as
`NOT (inner)`; AND and OR always parenthesize both operands; IN renders as
`field:IN(v1,v2,...)` with each value quoted under the same
space-character rule as search terms. -/
theorem C5_stringify_rules :
    (∀ v p l, SIQ.stringify (.SEARCH_TERM v p l) =
      if v.toList.contains ' ' then "\"" ++ v ++ "\"" else v) ∧
    (∀ pre q p l, SIQ.stringify (.WILDCARD pre q p l) =
      if q then "\"" ++ pre ++ "*\"" else pre ++ "*") ∧
    (∀ f v, SIQ.stringify (.FIELD_VALUE f v) = f.value ++ ":" ++ v.value) ∧
    (∀ f v w p l, SIQ.stringify (.RANGE f .BETWEEN v (some w) p l) =
      f.value ++ ":" ++ v.value ++ ".." ++ w.value) ∧
    (∀ f v v2 p l, SIQ.stringify (.RANGE f .GE v v2 p l) =
      f.value ++ ":" ++ ">=" ++ v.value) ∧
    (∀ f v v2 p l, SIQ.stringify (.RANGE f .GT v v2 p l) =
      f.value ++ ":" ++ ">" ++ v.value) ∧
    (∀ f v v2 p l, SIQ.stringify (.RANGE f .LE v v2 p l) =
      f.value ++ ":" ++ "<=" ++ v.value) ∧
    (∀ f v v2 p l, SIQ.stringify (.RANGE f .LT v v2 p l) =
      f.value ++ ":" ++ "<" ++ v.value) ∧
    (∀ e p l, SIQ.stringify (.NOT e p l) = "NOT (" ++ SIQ.stringify e ++ ")") ∧
    (∀ a b p l, SIQ.stringify (.AND a b p l) =
      "(" ++ SIQ.stringify a ++ " AND " ++ SIQ.stringify b ++ ")") ∧
    (∀ a b p l, SIQ.stringify (.OR a b p l) =
      "(" ++ SIQ.stringify a ++ " OR " ++ SIQ.stringify b ++ ")") ∧
    (∀ f vs p l, SIQ.stringify (.IN f vs p l) =
      f.value ++ ":IN(" ++
        String.intercalate ","
          (vs.map (fun v =>
            if v.value.toList.contains ' ' then "\"" ++ v.value ++ "\"" else v.value))
        ++ ")") := by
  refine ⟨fun v p l => ?_, fun pre q p l => rfl, fun f v => rfl,
    fun f v w p l => rfl, fun f v v2 p l => rfl, fun f v v2 p l => rfl,
    fun f v v2 p l => rfl, fun f v v2 p l => rfl, fun e p l => rfl,
    fun a b p l => rfl, fun a b p l => rfl, fun f vs p l => ?_⟩
  · simp [SIQ.stringify, SIQ.includesSpace]
  · simp [SIQ.stringify, SIQ.includesSpace]

/-- C7 counterexample: for the IN node `f:IN(aa,"b,c")` modelled as field
`f`, values `["aa", "b,c"]`, node position 0, the single INVALID_IN_VALUE
diagnostic is placed at position 8 = 0 + 1 + 3 + 1*(3+1), while the literal
offset of the value `b,c` within the rendered list `aa,b,c` puts the claimed
position at 7 = 0 + 1 + 3 + (2+1): the claim's position formula is not the
one the code computes. -/
theorem C7_position_counterexample :
    (SIQ.validateInExpression ⟨"f", ["aa", "b,c"], 0, 12⟩ []).map (fun e => e.position)
      = [8] ∧
    SIQ.inValueSpecPosition ⟨"f", ["aa", "b,c"], 0, 12⟩ 1 = 7 ∧ (8 : Nat) ≠ 7 := by
  refine ⟨by decide, by decide, by decide⟩

/-- C7 (amended): for every IN node, `validateInExpression` appends an
INVALID_IN_VALUE diagnostic for each listed value that contains a comma and
for no other value; the diagnostic's length equals the value's length, and
its position is the IN node's start position plus the field name's length
plus 3 plus `index * (value.length + 1)` — which equals the literal offset
of the value within the rendered comma-separated list only when all earlier
values have the same length as that value. -/
theorem C7_in_value_diagnostics (expr : SIQ.InExpression) :
    (SIQ.validateInExpression expr []).filter
        (fun e => decide (e.code = some SIQ.SearchQueryErrorCode.INVALID_IN_VALUE))
      = expr.values.enum.filterMap (fun p =>
          if p.2.toList.contains ',' then
            some { message := "Invalid character in IN value",
                   code := some SIQ.SearchQueryErrorCode.INVALID_IN_VALUE,
                   position := expr.position + expr.field.length + 3 + p.1 * (p.2.length + 1),
                   length := p.2.length }
          else none) := by
  have h1 : (SIQ.inValueErrors expr).filter
      (fun e => decide (e.code = some SIQ.SearchQueryErrorCode.INVALID_IN_VALUE))
      = SIQ.inValueErrors expr :=
    List.filter_eq_self.mpr (fun e he => by simp [SIQ.inValueErrors_code he])
  show _ = SIQ.inValueErrors expr
  rw [SIQ.validateInExpression_eq]
  simp only [List.nil_append, List.filter_append, h1]
  split <;> split <;> simp [List.filter_cons]

/-- C8: for every IN node, `validateInExpression` appends an
INVALID_FIELD_CHARS diagnostic exactly when the field name fails the
pattern `^[A-Za-z][A-Za-z0-9_-]*$`, and a RESERVED_WORD_AS_FIELD diagnostic
exactly when the upper-cased field name is one of AND, OR, NOT, IN (a
case-insensitive check).  The function is total, so it never throws. -/
theorem C8_in_field_name_checks (expr : SIQ.InExpression) :
    ((SIQ.validateInExpression expr []).countP
        (fun e => decide (e.code = some SIQ.SearchQueryErrorCode.INVALID_FIELD_CHARS))
      = if SIQ.isValidFieldName expr.field then 0 else 1) ∧
    ((SIQ.validateInExpression expr []).countP
        (fun e => decide (e.code = some SIQ.SearchQueryErrorCode.RESERVED_WORD_AS_FIELD))
      = if SIQ.upper expr.field ∈ (["AND", "OR", "NOT", "IN"] : List String) then 1 else 0) := by
  have h1 : ∀ c : SIQ.SearchQueryErrorCode, c ≠ .INVALID_IN_VALUE →
      (SIQ.inValueErrors expr).countP (fun e => decide (e.code = some c)) = 0 := by
    intro c hc
    refine List.countP_eq_zero.mpr (fun e he => ?_)
    have := SIQ.inValueErrors_code he
    simp [this, hc.symm]
  have hres : SIQ.reservedWords.contains (SIQ.upper expr.field)
      = decide (SIQ.upper expr.field ∈ (["AND", "OR", "NOT", "IN"] : List String)) := by
    simp [SIQ.reservedWords, List.contains]
  constructor
  · rw [SIQ.validateInExpression_eq]
    simp only [List.nil_append, List.countP_append,
      h1 SIQ.SearchQueryErrorCode.INVALID_FIELD_CHARS (by decide)]
    by_cases hv : SIQ.isValidFieldName expr.field <;>
      by_cases hr : SIQ.reservedWords.contains (SIQ.upper expr.field) <;>
        simp [hv, hr, List.countP_cons, List.countP_nil]
  · rw [SIQ.validateInExpression_eq]
    simp only [List.nil_append, List.countP_append,
      h1 SIQ.SearchQueryErrorCode.RESERVED_WORD_AS_FIELD (by decide), hres]
    by_cases hv : SIQ.isValidFieldName expr.field <;>
      by_cases hm : SIQ.upper expr.field ∈ (["AND", "OR", "NOT", "IN"] : List String) <;>
        simp [hv, hm, List.countP_cons, List.countP_nil]

/-- C10: `stringify` never quotes the value of a FIELD_VALUE expression (it
concatenates `field:value` even when the value contains a space), and the
whitespace test used for quoting SEARCH_TERM and IN values checks only for
the space character U+0020: a tab-bearing term or IN value stays unquoted. -/
theorem C10_field_value_unquoted_space_only :
    (∀ f v, SIQ.stringify (.FIELD_VALUE f v) = f.value ++ ":" ++ v.value) ∧
    SIQ.stringify (.FIELD_VALUE ⟨"title", 0, 5⟩ ⟨"foo bar", 6, 9⟩) = "title:foo bar" ∧
    (∀ v p l, SIQ.stringify (.SEARCH_TERM v p l) =
      if v.toList.contains ' ' then "\"" ++ v ++ "\"" else v) ∧
    SIQ.stringify (.SEARCH_TERM "a\tb" 0 3) = "a\tb" ∧
    SIQ.stringify (.IN ⟨"f", 0, 1⟩ [⟨"a\tb", 5, 3⟩] 0 10) = "f:IN(a\tb)" := by
  refine ⟨fun f v => rfl, by decide, fun v p l => ?_, by decide, by decide⟩
  simp [SIQ.stringify, SIQ.includesSpace]

/-- C6: `parseSearchInputQuery` returns a SEARCH_QUERY with a null
expression (and no errors) for every empty or whitespace-only input and
any field-schema list, and a null expression is returned only for such
inputs. -/
theorem C6_null_expression_iff_blank (input : String) (fieldSchemas : List SIQ.FieldSchema) :
    (SIQ.parseSearchInputQuery input fieldSchemas = SIQ.ParseResult.query none ↔
      input.toList.all SIQ.isQueryWs = true) := by
  constructor
  · intro h
    by_contra hws
    have hne : (SIQ.currentToken (SIQ.createStream (SIQ.tokenize input))).type
        ≠ SIQ.TokenType.EOF := fun he => hws ((SIQ.firstToken_eof_iff input).mp he)
    unfold SIQ.parseSearchInputQuery at h
    rcases hpar : SIQ.parseExpression (SIQ.createStream (SIQ.tokenize input)) with e | r
    · rw [SIQ.parseWith_par_error _ _ _ _ _ input fieldSchemas rfl hne hpar] at h
      cases h
    · by_cases hleft : (SIQ.currentToken r.stream).type = SIQ.TokenType.EOF
      · rcases hlen : (SIQ.mergeErrors (SIQ.validateSearchQuery r.result)
            (if (fieldSchemas.map (fun sc => SIQ.lower sc.name)).length > 0 then
              SIQ.validateExpressionFields r.result
                ((fieldSchemas.map (fun sc => SIQ.lower sc.name)).map
                  (fun col => SIQ.lower col)) []
                (fieldSchemas.map (fun sc => (SIQ.lower sc.name, sc)))
            else [])) with _ | ⟨e0, es⟩
        · rw [SIQ.parseWith_after_merge _ _ _ _ _ input fieldSchemas rfl hne hpar hleft rfl
            (SIQ.concreteFieldErrors_eq r fieldSchemas) hlen] at h
          cases h
        · rw [SIQ.parseWith_merged _ _ _ _ _ input fieldSchemas rfl hne hpar hleft rfl
            (SIQ.concreteFieldErrors_eq r fieldSchemas) (by rw [hlen]; simp)] at h
          cases h
      · rw [SIQ.parseWith_leftover _ _ _ _ _ input fieldSchemas rfl hne hpar hleft] at h
        cases h
  · intro hws
    unfold SIQ.parseSearchInputQuery
    exact SIQ.parseWith_eof _ _ _ _ _ input fieldSchemas rfl
      ((SIQ.firstToken_eof_iff input).mpr hws)

/-- C1: `parseSearchInputQuery` returns exactly one of two mutually
exclusive outcomes — a SEARCH_QUERY (expression present or null, no errors
field) or a SEARCH_QUERY_ERROR (null expression by construction of the
type, non-empty error list) — and whenever the merged diagnostic list is
non-empty the transformer is not invoked: the result is the error bundle
regardless of which transformer stage is plugged in, so a caller never
receives an Expression alongside outstanding errors. -/
theorem C1_exclusive_outcomes (input : String) (fieldSchemas : List SIQ.FieldSchema) :
    ((∃ oe, SIQ.parseSearchInputQuery input fieldSchemas = SIQ.ParseResult.query oe) ∨
      (∃ errs, SIQ.parseSearchInputQuery input fieldSchemas = SIQ.ParseResult.queryError errs
        ∧ errs ≠ [])) ∧
    (∀ l, SIQ.mergedDiagnostics input fieldSchemas = some l → l ≠ [] →
      ∀ tr2 : SIQ.FirstPass → List (String × SIQ.FieldSchema) →
          Except SIQ.ValidationError SIQ.Expression,
        SIQ.parseSearchInputQueryWith (fun str => .ok (SIQ.tokenize str)) SIQ.parseExpression
            (fun e => .ok (SIQ.validateSearchQuery e))
            (fun e cs acc m => .ok (SIQ.validateExpressionFields e cs acc m))
            tr2 input fieldSchemas
          = SIQ.ParseResult.queryError l) := by
  constructor
  · unfold SIQ.parseSearchInputQuery
    by_cases heof : (SIQ.currentToken (SIQ.createStream (SIQ.tokenize input))).type
        = SIQ.TokenType.EOF
    · exact Or.inl ⟨none, SIQ.parseWith_eof _ _ _ _ _ input fieldSchemas rfl heof⟩
    · rcases hpar : SIQ.parseExpression (SIQ.createStream (SIQ.tokenize input)) with e | r
      · exact Or.inr ⟨[e],
          SIQ.parseWith_par_error _ _ _ _ _ input fieldSchemas rfl heof hpar, by simp⟩
      · by_cases hleft : (SIQ.currentToken r.stream).type = SIQ.TokenType.EOF
        · rcases hlen : (SIQ.mergeErrors (SIQ.validateSearchQuery r.result)
              (if (fieldSchemas.map (fun sc => SIQ.lower sc.name)).length > 0 then
                SIQ.validateExpressionFields r.result
                  ((fieldSchemas.map (fun sc => SIQ.lower sc.name)).map
                    (fun col => SIQ.lower col)) []
                  (fieldSchemas.map (fun sc => (SIQ.lower sc.name, sc)))
              else [])) with _ | ⟨e0, es⟩
          · refine Or.inl ⟨some (SIQ.transformToExpression r.result
              (fieldSchemas.map (fun sc => (SIQ.lower sc.name, sc)))), ?_⟩
            rw [SIQ.parseWith_after_merge _ _ _ _ _ input fieldSchemas rfl heof hpar hleft rfl
              (SIQ.concreteFieldErrors_eq r fieldSchemas) hlen]
          · refine Or.inr ⟨e0 :: es, ?_, by simp⟩
            rw [← hlen]
            exact SIQ.parseWith_merged _ _ _ _ _ input fieldSchemas rfl heof hpar hleft rfl
              (SIQ.concreteFieldErrors_eq r fieldSchemas) (by rw [hlen]; simp)
        · exact Or.inr ⟨_,
            SIQ.parseWith_leftover _ _ _ _ _ input fieldSchemas rfl heof hpar hleft, by simp⟩
  · intro l hmd hl tr2
    by_cases heof : (SIQ.currentToken (SIQ.createStream (SIQ.tokenize input))).type
        = SIQ.TokenType.EOF
    · simp only [SIQ.mergedDiagnostics, heof, if_true] at hmd
      exact absurd (Option.some.inj hmd).symm hl
    · rcases hpar : SIQ.parseExpression (SIQ.createStream (SIQ.tokenize input)) with e | r
      · simp only [SIQ.mergedDiagnostics, heof, if_false, hpar] at hmd
        cases hmd
      · by_cases hleft : (SIQ.currentToken r.stream).type = SIQ.TokenType.EOF
        · simp only [SIQ.mergedDiagnostics, heof, if_false, hpar] at hmd
          rw [if_neg (not_not_intro hleft)] at hmd
          have hl2 := Option.some.inj hmd
          rw [← hl2] at hl ⊢
          exact SIQ.parseWith_merged _ _ _ _ _ input fieldSchemas rfl heof hpar hleft rfl
            (SIQ.concreteFieldErrors_eq r fieldSchemas) (List.length_pos.mpr hl)
        · simp only [SIQ.mergedDiagnostics, heof, if_false, hpar] at hmd
          rw [if_pos hleft] at hmd
          cases hmd

/-- C1 witness: on `and:foo` the merged diagnostics are the single
reserved-word error, and with an arbitrary transformer plugged in the
pipeline still returns exactly that error bundle. -/
theorem C1_witness :
    SIQ.parseSearchInputQueryWith (fun str => .ok (SIQ.tokenize str)) SIQ.parseExpression
        (fun e => .ok (SIQ.validateSearchQuery e))
        (fun e cs acc m => .ok (SIQ.validateExpressionFields e cs acc m))
        (fun _ _ => .ok (SIQ.Expression.SEARCH_TERM "x" 0 1)) "and:foo" []
      = SIQ.ParseResult.queryError
          [{ message := "and is a reserved word",
             code := some SIQ.SearchQueryErrorCode.RESERVED_WORD_AS_FIELD,
             position := 0, length := 3, value := some "and" }] :=
  (C1_exclusive_outcomes "and:foo" []).2 _ (by decide) (by decide) _

/-- C9: the public boundary is total — the pipeline always returns one of
the two result forms — and for every choice of internal stage functions
(tokenizer, first-pass parser, structural validator, schema validator,
transformer) a value thrown by the stage actually reached is caught and
returned as a SEARCH_QUERY_ERROR whose error list is exactly that thrown
value as its single element. -/
theorem C9_total_single_element_catch
    (tok : String → Except SIQ.ValidationError (List SIQ.Token))
    (par : SIQ.TokenStream → Except SIQ.ValidationError SIQ.FirstPassResult)
    (val : SIQ.FirstPass → Except SIQ.ValidationError (List SIQ.ValidationError))
    (vf : SIQ.FirstPass → List String → List SIQ.ValidationError →
      List (String × SIQ.FieldSchema) → Except SIQ.ValidationError (List SIQ.ValidationError))
    (tr : SIQ.FirstPass → List (String × SIQ.FieldSchema) →
      Except SIQ.ValidationError SIQ.Expression)
    (input : String) (fieldSchemas : List SIQ.FieldSchema) :
    ((∃ oe, SIQ.parseSearchInputQueryWith tok par val vf tr input fieldSchemas
        = SIQ.ParseResult.query oe) ∨
      (∃ errs, SIQ.parseSearchInputQueryWith tok par val vf tr input fieldSchemas
        = SIQ.ParseResult.queryError errs)) ∧
    (∀ e, tok input = .error e →
      SIQ.parseSearchInputQueryWith tok par val vf tr input fieldSchemas
        = SIQ.ParseResult.queryError [e]) ∧
    (∀ ts (e : SIQ.ValidationError), tok input = .ok ts →
      (SIQ.currentToken (SIQ.createStream ts)).type ≠ SIQ.TokenType.EOF →
      par (SIQ.createStream ts) = .error e →
      SIQ.parseSearchInputQueryWith tok par val vf tr input fieldSchemas
        = SIQ.ParseResult.queryError [e]) ∧
    (∀ ts (r : SIQ.FirstPassResult) (e : SIQ.ValidationError), tok input = .ok ts →
      (SIQ.currentToken (SIQ.createStream ts)).type ≠ SIQ.TokenType.EOF →
      par (SIQ.createStream ts) = .ok r →
      (SIQ.currentToken r.stream).type = SIQ.TokenType.EOF →
      val r.result = .error e →
      SIQ.parseSearchInputQueryWith tok par val vf tr input fieldSchemas
        = SIQ.ParseResult.queryError [e]) ∧
    (∀ ts (r : SIQ.FirstPassResult) (errors : List SIQ.ValidationError)
        (e : SIQ.ValidationError), tok input = .ok ts →
      (SIQ.currentToken (SIQ.createStream ts)).type ≠ SIQ.TokenType.EOF →
      par (SIQ.createStream ts) = .ok r →
      (SIQ.currentToken r.stream).type = SIQ.TokenType.EOF →
      val r.result = .ok errors →
      (if (fieldSchemas.map (fun sc => SIQ.lower sc.name)).length > 0 then
          vf r.result ((fieldSchemas.map (fun sc => SIQ.lower sc.name)).map
            (fun col => SIQ.lower col)) []
            (fieldSchemas.map (fun sc => (SIQ.lower sc.name, sc)))
        else .ok []) = .error e →
      SIQ.parseSearchInputQueryWith tok par val vf tr input fieldSchemas
        = SIQ.ParseResult.queryError [e]) ∧
    (∀ ts (r : SIQ.FirstPassResult) (errors fieldErrors : List SIQ.ValidationError)
        (e : SIQ.ValidationError), tok input = .ok ts →
      (SIQ.currentToken (SIQ.createStream ts)).type ≠ SIQ.TokenType.EOF →
      par (SIQ.createStream ts) = .ok r →
      (SIQ.currentToken r.stream).type = SIQ.TokenType.EOF →
      val r.result = .ok errors →
      (if (fieldSchemas.map (fun sc => SIQ.lower sc.name)).length > 0 then
          vf r.result ((fieldSchemas.map (fun sc => SIQ.lower sc.name)).map
            (fun col => SIQ.lower col)) []
            (fieldSchemas.map (fun sc => (SIQ.lower sc.name, sc)))
        else .ok []) = .ok fieldErrors →
      SIQ.mergeErrors errors fieldErrors = [] →
      tr r.result (fieldSchemas.map (fun sc => (SIQ.lower sc.name, sc))) = .error e →
      SIQ.parseSearchInputQueryWith tok par val vf tr input fieldSchemas
        = SIQ.ParseResult.queryError [e]) := by
  refine ⟨?_, ?_, ?_, ?_, ?_, ?_⟩
  · rcases hres : SIQ.parseSearchInputQueryWith tok par val vf tr input fieldSchemas
      with oe | errs
    · exact Or.inl ⟨oe, rfl⟩
    · exact Or.inr ⟨errs, rfl⟩
  · intro e htok
    exact SIQ.parseWith_tok_error tok par val vf tr input fieldSchemas htok
  · intro ts e htok hne hpar
    exact SIQ.parseWith_par_error tok par val vf tr input fieldSchemas htok hne hpar
  · intro ts r e htok hne hpar hleft hval
    exact SIQ.parseWith_val_error tok par val vf tr input fieldSchemas htok hne hpar hleft hval
  · intro ts r errors e htok hne hpar hleft hval hvf
    exact SIQ.parseWith_vf_error tok par val vf tr input fieldSchemas htok hne hpar hleft hval hvf
  · intro ts r errors fieldErrors e htok hne hpar hleft hval hvf hnil htr
    rw [SIQ.parseWith_after_merge tok par val vf tr input fieldSchemas htok hne hpar hleft
      hval hvf hnil, htr]

/-- C9 witness: a tokenizer stage that throws a concrete error value is
caught, and the result is the SEARCH_QUERY_ERROR holding exactly that
value. -/
theorem C9_witness :
    SIQ.parseSearchInputQueryWith
        (fun _ => .error { message := "boom", position := 0, length := 0 })
        SIQ.parseExpression (fun e => .ok (SIQ.validateSearchQuery e))
        (fun e cs acc m => .ok (SIQ.validateExpressionFields e cs acc m))
        (fun e m => .ok (SIQ.transformToExpression e m)) "a" []
      = SIQ.ParseResult.queryError [{ message := "boom", position := 0, length := 0 }] :=
  (C9_total_single_element_catch _ _ _ _ _ "a" []).2.1 _ rfl

/-- C4: structural errors are fail-fast singletons — if the first-pass
parser throws, the result is a SEARCH_QUERY_ERROR whose error list is
exactly the thrown diagnostic; if tokens remain unconsumed after
parseExpression (for example an extra `)`), the result is a
SEARCH_QUERY_ERROR whose single element carries the offending token's
position and length. -/
theorem C4_structural_fail_fast (input : String) (fieldSchemas : List SIQ.FieldSchema) :
    (∀ e : SIQ.ValidationError,
      (SIQ.currentToken (SIQ.createStream (SIQ.tokenize input))).type ≠ SIQ.TokenType.EOF →
      SIQ.parseExpression (SIQ.createStream (SIQ.tokenize input)) = .error e →
      SIQ.parseSearchInputQuery input fieldSchemas = SIQ.ParseResult.queryError [e]) ∧
    (∀ r : SIQ.FirstPassResult,
      (SIQ.currentToken (SIQ.createStream (SIQ.tokenize input))).type ≠ SIQ.TokenType.EOF →
      SIQ.parseExpression (SIQ.createStream (SIQ.tokenize input)) = .ok r →
      (SIQ.currentToken r.stream).type ≠ SIQ.TokenType.EOF →
      SIQ.parseSearchInputQuery input fieldSchemas
        = SIQ.ParseResult.queryError [{ message := "Unexpected \")\"",
                                        position := (SIQ.currentToken r.stream).position,
                                        length := (SIQ.currentToken r.stream).length }]) := by
  constructor
  · intro e hne hpar
    unfold SIQ.parseSearchInputQuery
    exact SIQ.parseWith_par_error _ _ _ _ _ input fieldSchemas rfl hne hpar
  · intro r hne hpar hleft
    unfold SIQ.parseSearchInputQuery
    exact SIQ.parseWith_leftover _ _ _ _ _ input fieldSchemas rfl hne hpar hleft

/-- C4 witness: `a)` leaves the extra `)` unconsumed; the result is the
single structural error at the paren's position 1, length 1. -/
theorem C4_witness :
    SIQ.parseSearchInputQuery "a)" []
      = SIQ.ParseResult.queryError
          [{ message := "Unexpected \")\"", position := 1, length := 1 }] :=
  (C4_structural_fail_fast "a)" []).2
    ⟨.TERM "a" 0 1, ⟨[⟨.IDENTIFIER, "a", 0, 1⟩, ⟨.RPAREN, ")", 1, 1⟩, ⟨.EOF, "", 2, 0⟩], 1⟩⟩
    (by decide) rfl (by decide)

/-- C2 (code bug): the serialize/parse round trip fails.  The input
`title:"foo bar"` parses with no diagnostics to
FIELD_VALUE(title, "foo bar"); `stringify` renders it as `title:foo bar`
without quotes; re-parsing that text yields
AND(FIELD_VALUE(title, foo), SEARCH_TERM(bar)), which is not structurally
equal (even ignoring positions) to the original expression. -/
theorem C2_roundtrip_failure :
    SIQ.parseSearchInputQuery "title:\"foo bar\"" []
        = SIQ.ParseResult.query
            (some (.FIELD_VALUE ⟨"title", 0, 5⟩ ⟨"foo bar", 6, 9⟩)) ∧
    SIQ.stringify (.FIELD_VALUE ⟨"title", 0, 5⟩ ⟨"foo bar", 6, 9⟩) = "title:foo bar" ∧
    SIQ.parseSearchInputQuery "title:foo bar" []
        = SIQ.ParseResult.query
            (some (.AND (.FIELD_VALUE ⟨"title", 0, 5⟩ ⟨"foo", 6, 3⟩)
              (.SEARCH_TERM "bar" 10 3) 0 13)) ∧
    SIQ.eraseP (.AND (.FIELD_VALUE ⟨"title", 0, 5⟩ ⟨"foo", 6, 3⟩)
        (.SEARCH_TERM "bar" 10 3) 0 13)
      ≠ SIQ.eraseP (.FIELD_VALUE ⟨"title", 0, 5⟩ ⟨"foo bar", 6, 9⟩) := by
  exact ⟨by decide, by decide, by decide, by decide⟩
